import Mathlib

/-!
Verification of the collision-resolution core of a 2D platform game.

The Rust source works over `f32`; this development embeds the same
algorithms over exact rationals (`ℚ`), so every comparison and division
in the source is translated verbatim and every definition is executable.
The fixed numeric constants (`EPSILON = 0.001` in `line_segment.rs`,
`EPSILON = 0.0001` in `game.rs`) become the exact rationals `1/1000` and
`1/10000`.
-/

/-- 2D vector of rationals, embedding `cgmath::Vector2<f32>`. -/
structure Vec2 where
  x : ℚ
  y : ℚ
deriving DecidableEq, Repr

/-- `cgmath::vec2` constructor. -/
def vec2 (x y : ℚ) : Vec2 := ⟨x, y⟩

instance : Add Vec2 := ⟨fun a b => ⟨a.x + b.x, a.y + b.y⟩⟩

instance : Sub Vec2 := ⟨fun a b => ⟨a.x - b.x, a.y - b.y⟩⟩

instance : Neg Vec2 := ⟨fun a => ⟨-a.x, -a.y⟩⟩

/-- Vector-times-scalar, embedding `Vector2<f32> * f32`. -/
instance : HMul Vec2 ℚ Vec2 := ⟨fun a k => ⟨a.x * k, a.y * k⟩⟩

namespace Vec2

/-- `cgmath::InnerSpace::dot`. -/
def dot (a b : Vec2) : ℚ := a.x * b.x + a.y * b.y

/-- `cgmath::InnerSpace::magnitude2` (squared magnitude). -/
def magnitude2 (a : Vec2) : ℚ := a.dot a

theorem add_def (a b : Vec2) : a + b = ⟨a.x + b.x, a.y + b.y⟩ := rfl

theorem sub_def (a b : Vec2) : a - b = ⟨a.x - b.x, a.y - b.y⟩ := rfl

theorem mul_def (a : Vec2) (k : ℚ) : a * k = ⟨a.x * k, a.y * k⟩ := rfl

theorem neg_def (a : Vec2) : -a = ⟨-a.x, -a.y⟩ := rfl

end Vec2

/-- `vector2_cross_product` from `line_segment.rs`: `v.x * w.y - v.y * w.x`. -/
def vector2_cross_product (v w : Vec2) : ℚ := v.x * w.y - v.y * w.x

/-! ## `aabb.rs` -/

/-- `Aabb` from `aabb.rs`. -/
structure Aabb where
  top_left_coord : Vec2
  size : Vec2
deriving DecidableEq, Repr

namespace Aabb

/-- `Aabb::new`. -/
def new (top_left_coord size : Vec2) : Aabb := ⟨top_left_coord, size⟩

/-- `Aabb::bottom_right_coord`. -/
def bottom_right_coord (a : Aabb) : Vec2 := a.top_left_coord + a.size

/-- `Aabb::union` from `aabb.rs`: component-wise min of top-lefts,
component-wise max of bottom-rights. -/
def union (a b : Aabb) : Aabb :=
  let top_left_coord := vec2 (min a.top_left_coord.x b.top_left_coord.x)
    (min a.top_left_coord.y b.top_left_coord.y)
  let a_bottom_right_coord := a.bottom_right_coord
  let b_bottom_right_coord := b.bottom_right_coord
  let bottom_right_coord := vec2
    (max a_bottom_right_coord.x b_bottom_right_coord.x)
    (max a_bottom_right_coord.y b_bottom_right_coord.y)
  let size := bottom_right_coord - top_left_coord
  Aabb.new top_left_coord size

/-- `Aabb::is_intersecting` from `aabb.rs`: strict open-interval overlap
on both axes. -/
def is_intersecting (a other : Aabb) : Bool :=
  a.top_left_coord.x + a.size.x > other.top_left_coord.x
    && other.top_left_coord.x + other.size.x > a.top_left_coord.x
    && a.top_left_coord.y + a.size.y > other.top_left_coord.y
    && other.top_left_coord.y + other.size.y > a.top_left_coord.y

/-- An AABB `c` contains an AABB `a` when `a`'s extent lies inside `c`'s
extent on both axes. -/
def contains (c a : Aabb) : Prop :=
  c.top_left_coord.x ≤ a.top_left_coord.x ∧
  c.top_left_coord.y ≤ a.top_left_coord.y ∧
  a.bottom_right_coord.x ≤ c.bottom_right_coord.x ∧
  a.bottom_right_coord.y ≤ c.bottom_right_coord.y

instance (c a : Aabb) : Decidable (contains c a) := by
  unfold contains; infer_instance

end Aabb

/-! ## `line_segment.rs` -/

/-- `LineSegment` from `line_segment.rs`. The Rust field `end` is a Lean
keyword, so it is called `endp` here. -/
structure LineSegment where
  start : Vec2
  endp : Vec2
deriving DecidableEq, Repr

/-- `IntersectionSlide` from `line_segment.rs`. -/
inductive IntersectionSlide where
  | Colinear
  | Vertex
deriving DecidableEq, Repr

/-- `IntersectionNone` from `line_segment.rs`. -/
inductive IntersectionNone where
  | NonParallelNonIntersecting
  | ColinearNonOverlapping
  | ParallelNonColinear
deriving DecidableEq, Repr

/-- `IntersectionOrSlide` from `line_segment.rs`. -/
inductive IntersectionOrSlide where
  | IntersectionWithVectorMultiplier (multiplier : ℚ)
  | Slide (s : IntersectionSlide)
deriving DecidableEq, Repr

/-- `IntersectionResult = Result<IntersectionOrSlide, IntersectionNone>`. -/
abbrev IntersectionResult := Except IntersectionNone IntersectionOrSlide

/-- `EPSILON` from `line_segment.rs` (`0.001`). -/
def EPSILON : ℚ := 1/1000

namespace LineSegment

/-- `LineSegment::new`. -/
def new (start endp : Vec2) : LineSegment := ⟨start, endp⟩

/-- `LineSegment::add_vector`. -/
def add_vector (seg : LineSegment) (v : Vec2) : LineSegment :=
  ⟨seg.start + v, seg.endp + v⟩

/-- `LineSegment::vector`: `end - start`. -/
def vector (seg : LineSegment) : Vec2 := seg.endp - seg.start

/-- `LineSegment::intersection` from `line_segment.rs`, translated
branch for branch.  `self = p + t*r` for `t` in `0..1`, `other = q + u*s`
for `u` in `0..1`. -/
def intersection (self other : LineSegment) : IntersectionResult :=
  let p := self.start
  let q := other.start
  let r := self.vector
  let s := other.vector
  let rxs := vector2_cross_product r s
  let p_to_q := q - p
  if |rxs| < EPSILON then
    -- lines are parallel
    if |vector2_cross_product p_to_q r| < EPSILON then
      -- lines are colinear
      let r_len2 := r.dot r
      let t0 := p_to_q.dot r
      let t1 := (p_to_q + s).dot r
      -- the range t0..t1 will overlap with 0..r_len2 iff the lines overlap
      if t0 < t1 then
        if t0 ≤ r_len2 ∧ t1 ≥ 0 then
          Except.ok (IntersectionOrSlide.Slide IntersectionSlide.Colinear)
        else
          Except.error IntersectionNone.ColinearNonOverlapping
      else
        if t1 ≤ r_len2 ∧ t0 ≥ 0 then
          Except.ok (IntersectionOrSlide.Slide IntersectionSlide.Colinear)
        else
          Except.error IntersectionNone.ColinearNonOverlapping
    else
      -- lines are not colinear, so they don't intersect
      Except.error IntersectionNone.ParallelNonColinear
  else
    let t := vector2_cross_product p_to_q s / rxs
    if t < -EPSILON ∨ t > 1 + EPSILON then
      Except.error IntersectionNone.NonParallelNonIntersecting
    else
    let u := vector2_cross_product p_to_q r / rxs
    if |u| < EPSILON ∨ |u - 1| < EPSILON then
      Except.ok (IntersectionOrSlide.Slide IntersectionSlide.Vertex)
    else if u < -EPSILON ∨ u > 1 + EPSILON then
      Except.error IntersectionNone.NonParallelNonIntersecting
    else
      Except.ok (IntersectionOrSlide.IntersectionWithVectorMultiplier t)

/-- `Collide::aabb` for `LineSegment` (from `line_segment.rs`). -/
def aabb (seg : LineSegment) (top_left : Vec2) : Aabb :=
  let start := seg.start + top_left
  let e := seg.endp + top_left
  let x_min := min start.x e.x
  let x_max := max start.x e.x
  let y_min := min start.y e.y
  let y_max := max start.y e.y
  let tl := vec2 x_min y_min
  let bottom_right := vec2 x_max y_max
  Aabb.new tl (bottom_right - tl)

/-- `Collide::for_each_edge_facing` for `LineSegment`: always yields the
segment itself. -/
def for_each_edge_facing (seg : LineSegment) (_direction : Vec2) :
    List LineSegment := [seg]

/-- `Collide::for_each_vertex_facing` for `LineSegment`: always yields
both endpoints. -/
def for_each_vertex_facing (seg : LineSegment) (_direction : Vec2) :
    List Vec2 := [seg.start, seg.endp]

end LineSegment

/-! ## `BestMap` (external `best` crate) -/

/-- Modelled from the spec: the `BestMap` best-candidate selector comes
from the external `best` crate, whose source is not part of this
repository.  Spec section 4.5 describes it as a holder of an optional
`(key, value)` pair. -/
def BestMap (K V : Type) : Type := Option (K × V)

namespace BestMap

/-- Modelled from the spec: `BestMap::new` starts empty. -/
def new (K V : Type) : BestMap K V := none

/-- Modelled from the spec: `insert_le(key, value)` replaces the entry
if there is no existing entry, or if `key ≤ existing.key`. -/
def insert_le {K V : Type} [LE K] [DecidableRel (fun a b : K => a ≤ b)]
    (m : BestMap K V) (key : K) (value : V) : BestMap K V :=
  match m with
  | none => some (key, value)
  | some (k, v) => if key ≤ k then some (key, value) else some (k, v)

/-- Modelled from the spec: `insert_lt(key, value)` replaces the entry
only if there is no existing entry, or if `key < existing.key`
(strict). -/
def insert_lt {K V : Type} [LT K] [DecidableRel (fun a b : K => a < b)]
    (m : BestMap K V) (key : K) (value : V) : BestMap K V :=
  match m with
  | none => some (key, value)
  | some (k, v) => if key < k then some (key, value) else some (k, v)

/-- Modelled from the spec: `BestMap::into_key_and_value` returns the
held pair, if any. -/
def into_key_and_value {K V : Type} (m : BestMap K V) : Option (K × V) := m

end BestMap

/-! ## `shape.rs` -/

/-- `CollisionInfo` from `shape.rs`. -/
structure CollisionInfo where
  movement_vector_ratio : ℚ
  colliding_with : LineSegment
deriving DecidableEq, Repr

/-- The `Collide` trait interface from `shape.rs`: the three methods a
shape implements.  Callback-style `for_each` methods are embedded as the
list of values they emit, in emission order. -/
class Collide (α : Type) where
  aabb : α → Vec2 → Aabb
  for_each_edge_facing : α → Vec2 → List LineSegment
  for_each_vertex_facing : α → Vec2 → List Vec2

instance : Collide LineSegment where
  aabb := LineSegment.aabb
  for_each_edge_facing := LineSegment.for_each_edge_facing
  for_each_vertex_facing := LineSegment.for_each_vertex_facing

/-- `for_each_single_direction_intersection` from `shape.rs`: for each
vertex of `shape` facing `movement`, build the probe segment from the
world-space vertex to vertex + movement, intersect it against each edge
of `other_shape` facing `reverse_movement`, and emit the `Ok` outcomes
paired with the world-space edge (errors are discarded). -/
def for_each_single_direction_intersection {A B : Type} [Collide A] [Collide B]
    (shape : A) (position : Vec2) (other_shape : B) (other_position : Vec2)
    (movement reverse_movement : Vec2) :
    List (IntersectionOrSlide × LineSegment) :=
  (Collide.for_each_vertex_facing shape movement).flatMap (fun rel_vertex =>
    let abs_vertex := rel_vertex + position
    let vertex_movement := LineSegment.new abs_vertex (abs_vertex + movement)
    (Collide.for_each_edge_facing other_shape reverse_movement).filterMap
      (fun rel_edge =>
        let abs_edge := rel_edge.add_vector other_position
        match vertex_movement.intersection abs_edge with
        | Except.ok intersection_or_slide => some (intersection_or_slide, abs_edge)
        | Except.error _ => none))

/-- `Collide::for_each_movement_intersection` from `shape.rs`: the
forward sweep (moving shape's vertices against the stationary shape's
edges) followed by the reverse sweep (stationary shape's vertices, moved
by `-movement`, against the moving shape's edges). -/
def Collide.for_each_movement_intersection {A B : Type} [Collide A] [Collide B]
    (shape : A) (position : Vec2) (stationary_shape : B)
    (stationary_position : Vec2) (movement : Vec2) :
    List (IntersectionOrSlide × LineSegment) :=
  let reverse_movement := -movement
  for_each_single_direction_intersection shape position stationary_shape
      stationary_position movement reverse_movement
    ++ for_each_single_direction_intersection stationary_shape
      stationary_position shape position reverse_movement movement

/-- `Collide::movement_collision_test` from `shape.rs`: feed every
`IntersectionWithVectorMultiplier` outcome into a `BestMap` via
`insert_le` (slides are ignored), and return the held best pair as a
`CollisionInfo`. -/
def Collide.movement_collision_test {A B : Type} [Collide A] [Collide B]
    (shape : A) (position : Vec2) (stationary_shape : B)
    (stationary_position : Vec2) (movement : Vec2) : Option CollisionInfo :=
  let best_collision :=
    (Collide.for_each_movement_intersection shape position stationary_shape
        stationary_position movement).foldl
      (fun best p =>
        match p.1 with
        | IntersectionOrSlide.IntersectionWithVectorMultiplier current_scale =>
          best.insert_le current_scale p.2
        | IntersectionOrSlide.Slide _ => best)
      (BestMap.new ℚ LineSegment)
  match best_collision.into_key_and_value with
  | some (movement_vector_ratio, colliding_with) =>
    some { movement_vector_ratio, colliding_with }
  | none => none

/-- `AxisAlignedRect` from `shape.rs`. -/
structure AxisAlignedRect where
  dimensions : Vec2
deriving DecidableEq, Repr

namespace AxisAlignedRect

/-- `AxisAlignedRect::new`. -/
def new (dimensions : Vec2) : AxisAlignedRect := ⟨dimensions⟩

/-- `AxisAlignedRect::top_left`. -/
def top_left (_r : AxisAlignedRect) : Vec2 := vec2 0 0

/-- `AxisAlignedRect::top_right`. -/
def top_right (r : AxisAlignedRect) : Vec2 := vec2 r.dimensions.x 0

/-- `AxisAlignedRect::bottom_left`. -/
def bottom_left (r : AxisAlignedRect) : Vec2 := vec2 0 r.dimensions.y

/-- `AxisAlignedRect::bottom_right`. -/
def bottom_right (r : AxisAlignedRect) : Vec2 := r.dimensions

/-- `AxisAlignedRect::top`. -/
def top (r : AxisAlignedRect) : LineSegment :=
  LineSegment.new r.top_left r.top_right

/-- `AxisAlignedRect::right`. -/
def right (r : AxisAlignedRect) : LineSegment :=
  LineSegment.new r.top_right r.bottom_right

/-- `AxisAlignedRect::bottom`. -/
def bottom (r : AxisAlignedRect) : LineSegment :=
  LineSegment.new r.bottom_right r.bottom_left

/-- `AxisAlignedRect::left`. -/
def left (r : AxisAlignedRect) : LineSegment :=
  LineSegment.new r.bottom_left r.top_left

/-- `Collide::aabb` for `AxisAlignedRect`. -/
def aabb (r : AxisAlignedRect) (top_left : Vec2) : Aabb :=
  Aabb.new top_left r.dimensions

/-- `Collide::for_each_vertex_facing` for `AxisAlignedRect` from
`shape.rs`, with the emitted vertices collected in emission order. -/
def for_each_vertex_facing (r : AxisAlignedRect) (direction : Vec2) :
    List Vec2 :=
  if direction.y > 0 then
    [r.bottom_left, r.bottom_right] ++
      (if direction.x > 0 then [r.top_right]
       else if direction.x < 0 then [r.top_left]
       else [])
  else if direction.y < 0 then
    [r.top_left, r.top_right] ++
      (if direction.x > 0 then [r.bottom_right]
       else if direction.x < 0 then [r.bottom_left]
       else [])
  else
    if direction.x > 0 then [r.top_right, r.bottom_right]
    else if direction.x < 0 then [r.top_left, r.bottom_left]
    else []

/-- `Collide::for_each_edge_facing` for `AxisAlignedRect` from
`shape.rs`: bottom or top edge by the sign of `direction.y`, then right
or left edge by the sign of `direction.x`. -/
def for_each_edge_facing (r : AxisAlignedRect) (direction : Vec2) :
    List LineSegment :=
  (if direction.y > 0 then [r.bottom]
   else if direction.y < 0 then [r.top]
   else []) ++
  (if direction.x > 0 then [r.right]
   else if direction.x < 0 then [r.left]
   else [])

end AxisAlignedRect

instance : Collide AxisAlignedRect where
  aabb := AxisAlignedRect.aabb
  for_each_edge_facing := AxisAlignedRect.for_each_edge_facing
  for_each_vertex_facing := AxisAlignedRect.for_each_vertex_facing

/-- `Shape` from `shape.rs`. -/
inductive Shape where
  | AxisAlignedRect (r : AxisAlignedRect)
  | LineSegment (s : LineSegment)
deriving DecidableEq, Repr

namespace Shape

/-- `Shape::aabb`. -/
def aabb (s : Shape) (top_left : Vec2) : Aabb :=
  match s with
  | Shape.AxisAlignedRect r => r.aabb top_left
  | Shape.LineSegment seg => seg.aabb top_left

/-- `Shape::movement_collision_test` from `shape.rs`.  The
`Shape::LineSegment(_) => panic!()` arm of the Rust source is embedded
as `none`; a normal `Option<CollisionInfo>` result is `some r`. -/
def movement_collision_test (s : Shape) (position : Vec2)
    (stationary : Shape) (stationary_position : Vec2)
    (movement_vector : Vec2) : Option (Option CollisionInfo) :=
  match s with
  | Shape.AxisAlignedRect moving =>
    match stationary with
    | Shape.AxisAlignedRect stationary =>
      some (Collide.movement_collision_test moving position stationary
        stationary_position movement_vector)
    | Shape.LineSegment stationary =>
      some (Collide.movement_collision_test moving position stationary
        stationary_position movement_vector)
  | Shape.LineSegment _ => none

end Shape

/-! ## `game.rs` -/

namespace Vec2

/-- `cgmath::InnerSpace::project_on`: `other * (self·other / other·other)`.
In `game.rs` the projection target is `colliding_with.vector().normalize()`;
in exact arithmetic projecting onto `normalize(d)` equals projecting onto
`d` itself (the normalizing factor cancels), so the embedding projects
onto the unnormalized vector and no square root is needed. -/
def project_on (self other : Vec2) : Vec2 :=
  other * (self.dot other / other.dot other)

end Vec2

/-- `EPSILON` from `game.rs` (`0.0001`). -/
def EPSILON_GAME : ℚ := 1/10000

/-- `MAX_ITERATIONS` from `game.rs`. -/
def MAX_ITERATIONS : Nat := 16

/-- `EntityCommon` from `game.rs`. -/
structure EntityCommon where
  top_left : Vec2
  shape : Shape
  colour : ℚ × ℚ × ℚ
deriving DecidableEq, Repr

/-- `SpatialInfo` from `game.rs`. -/
structure SpatialInfo where
  entity_id : Nat
  position : Vec2
  shape : Shape
deriving DecidableEq, Repr

/-- The broad-phase index: stored `(AABB, payload)` entries.  The
`LooseQuadTree` structure itself lives in an external crate; only its
query contract matters here. -/
def SpatialLooseQuadTree : Type := List (Aabb × SpatialInfo)

/-- Modelled from the spec: `LooseQuadTree::for_each_intersection` comes
from the external `loose_quad_tree` crate.  Spec section 6 gives its
contract: visit every stored entry whose AABB satisfies
`Aabb.is_intersecting` against the query AABB (iteration order
unspecified; modelled as insertion order). -/
def SpatialLooseQuadTree.for_each_intersection (tree : SpatialLooseQuadTree)
    (query_aabb : Aabb) : List (Aabb × SpatialInfo) :=
  tree.filter (fun entry => entry.1.is_intersecting query_aabb)

/-- `EntityMovementStep` from `game.rs`. -/
inductive EntityMovementStep where
  | MoveWithoutCollision
  | MoveWithCollision (info : CollisionInfo)
deriving DecidableEq, Repr

/-- The visitor closure of `entity_movement_step` from `game.rs`: for
one broad-phase candidate, run the swept collision test and keep the
earliest collision via `insert_lt`.  `Shape::movement_collision_test`
can panic (for a `LineSegment` mover); the panic poisons the
accumulator as `none`. -/
def collision_fold_step (shape : Shape) (top_left movement : Vec2)
    (acc : Option (BestMap ℚ LineSegment)) (entry : Aabb × SpatialInfo) :
    Option (BestMap ℚ LineSegment) :=
  match acc with
  | none => none
  | some collision =>
    match shape.movement_collision_test top_left entry.2.shape
        entry.2.position movement with
    | none => none
    | some none => some collision
    | some (some ci) =>
      some (collision.insert_lt ci.movement_vector_ratio ci.colliding_with)

/-- `entity_movement_step` from `game.rs`: query the broad phase with
the union of the shape's AABBs before and after the movement, run the
swept collision test against every candidate, and keep the earliest
collision via `insert_lt`.  A propagated panic is `none`. -/
def entity_movement_step (top_left : Vec2) (shape : Shape) (movement : Vec2)
    (static_aabb_quad_tree : SpatialLooseQuadTree) :
    Option EntityMovementStep :=
  let new_top_left := top_left + movement
  let movement_aabb := (shape.aabb top_left).union (shape.aabb new_top_left)
  let folded :=
    (static_aabb_quad_tree.for_each_intersection movement_aabb).foldl
      (collision_fold_step shape top_left movement)
      (some (BestMap.new ℚ LineSegment))
  match folded with
  | none => none
  | some collision =>
    match collision.into_key_and_value with
    | none => some EntityMovementStep.MoveWithoutCollision
    | some (movement_vector_ratio, colliding_with) =>
      some (EntityMovementStep.MoveWithCollision
        { movement_vector_ratio, colliding_with })

/-- The `for _ in 0..MAX_ITERATIONS` loop body of `top_left_after_movement`
from `game.rs`, with the remaining iteration count as fuel: fuel `0` is
the fall-through after the final iteration, which returns the
accumulated `top_left`.  A propagated panic is `none`. -/
def top_left_after_movement_loop (static_aabb_quad_tree : SpatialLooseQuadTree)
    (shape : Shape) : Nat → Vec2 → Vec2 → Option Vec2
  | 0, top_left, _movement => some top_left
  | Nat.succ n, top_left, movement =>
    match entity_movement_step top_left shape movement static_aabb_quad_tree with
    | none => none
    | some EntityMovementStep.MoveWithoutCollision => some (top_left + movement)
    | some (EntityMovementStep.MoveWithCollision
        { movement_vector_ratio, colliding_with }) =>
      let top_left' := top_left + movement * movement_vector_ratio
      let remaining_ratio := 1 - movement_vector_ratio
      if remaining_ratio < EPSILON_GAME then some top_left'
      else
        let remaining_vector := movement * remaining_ratio
        let collision_surface_direction := colliding_with.vector
        let movement' := remaining_vector.project_on collision_surface_direction
        if movement'.magnitude2 < EPSILON_GAME then some top_left'
        else top_left_after_movement_loop static_aabb_quad_tree shape n
          top_left' movement'

/-- `top_left_after_movement` from `game.rs`: movements with squared
magnitude below `EPSILON` return the position unchanged before any
broad-phase query; otherwise run the sweep loop for at most
`MAX_ITERATIONS` iterations. -/
def top_left_after_movement (static_aabb_quad_tree : SpatialLooseQuadTree)
    (common : EntityCommon) (movement : Vec2) : Option Vec2 :=
  if movement.dot movement < EPSILON_GAME then some common.top_left
  else top_left_after_movement_loop static_aabb_quad_tree common.shape
    MAX_ITERATIONS common.top_left movement

/-! ## `collision.rs` -/

/-- 2D vector of integers, embedding `cgmath::Vector2<N>` at the `i64`
instantiation the `collision.rs` tests use. -/
structure IVec2 where
  x : ℤ
  y : ℤ
deriving DecidableEq, Repr

instance : Add IVec2 := ⟨fun a b => ⟨a.x + b.x, a.y + b.y⟩⟩

instance : Sub IVec2 := ⟨fun a b => ⟨a.x - b.x, a.y - b.y⟩⟩

instance : HMul IVec2 ℤ IVec2 := ⟨fun a k => ⟨a.x * k, a.y * k⟩⟩

/-- The generic `LineSegment<N>` used by `collision.rs`, at `N = i64`. -/
structure ILineSegment where
  start : IVec2
  endp : IVec2
deriving DecidableEq, Repr

/-- `ILineSegment::vector`. -/
def ILineSegment.vector (seg : ILineSegment) : IVec2 := seg.endp - seg.start

/-- `vector2_cross_product` from `collision.rs`, at `N = i64`. -/
def vector2_cross_product_int (v w : IVec2) : ℤ := v.x * w.y - v.y * w.x

/-- Outcome of `collision.rs`'s `vertex_edge`: `unhandled` embeds the
`unimplemented!()` arm taken when the cross product is zero, `ok r`
embeds a normal `Option<Vector2<N>>` return. -/
inductive VertexEdgeResult where
  | unhandled
  | ok (allowed_vertex_movement : Option IVec2)
deriving DecidableEq, Repr

/-- `vertex_edge` from `collision.rs`, translated branch for branch at
`N = i64` (`Int.tdiv` is Rust's truncating `i64` division). -/
def vertex_edge (vertex : IVec2) (vertex_movement : IVec2)
    (edge : ILineSegment) : VertexEdgeResult :=
  let edge_vector := edge.vector
  let cross := vector2_cross_product_int vertex_movement edge_vector
  if cross = 0 then VertexEdgeResult.unhandled
  else
    let cross_abs := |cross|
    let cross_sign := Int.sign cross
    let vertex_to_edge_start := edge.start - vertex
    let vertex_multiplier_x_cross :=
      vector2_cross_product_int vertex_to_edge_start edge_vector
    let vertex_multiplier_x_cross_abs := vertex_multiplier_x_cross * cross_sign
    if vertex_multiplier_x_cross_abs < 0 then VertexEdgeResult.ok none
    else if vertex_multiplier_x_cross_abs > cross_abs then VertexEdgeResult.ok none
    else
      let edge_multiplier_x_cross :=
        vector2_cross_product_int vertex_to_edge_start vertex_movement
      let edge_multiplier_x_cross_abs := edge_multiplier_x_cross * cross_sign
      if edge_multiplier_x_cross_abs < 0 then VertexEdgeResult.ok none
      else if edge_multiplier_x_cross_abs > cross_abs then VertexEdgeResult.ok none
      else
        let movement_to_intersection_point_x_cross :=
          vertex_movement * vertex_multiplier_x_cross
        let one := (1 : ℤ) * cross_sign
        let x := Int.tdiv (movement_to_intersection_point_x_cross.x - one) cross
        let y := Int.tdiv (movement_to_intersection_point_x_cross.y - one) cross
        VertexEdgeResult.ok (some ⟨x, y⟩)

/-! ## Spec-side characterizations and concrete fixtures -/

/-- The segment-intersection classifier as spec section 4.2 words it
(with the colinear overlap test phrased through `min`/`max`), and with
the `u` window stated the way the code checks it: `u` strictly below
`-EPSILON` or strictly above `1 + EPSILON` is a miss. -/
def intersection_spec (self other : LineSegment) : IntersectionResult :=
  let p := self.start
  let q := other.start
  let r := self.vector
  let s := other.vector
  let cross := vector2_cross_product r s
  if |cross| < EPSILON then
    if |vector2_cross_product (q - p) r| < EPSILON then
      let t0 := (q - p).dot r
      let t1 := ((q - p) + s).dot r
      if min t0 t1 ≤ r.dot r ∧ 0 ≤ max t0 t1 then
        Except.ok (IntersectionOrSlide.Slide IntersectionSlide.Colinear)
      else Except.error IntersectionNone.ColinearNonOverlapping
    else Except.error IntersectionNone.ParallelNonColinear
  else
    let t := vector2_cross_product (q - p) s / cross
    if t < -EPSILON ∨ t > 1 + EPSILON then
      Except.error IntersectionNone.NonParallelNonIntersecting
    else
      let u := vector2_cross_product (q - p) r / cross
      if |u| < EPSILON ∨ |u - 1| < EPSILON then
        Except.ok (IntersectionOrSlide.Slide IntersectionSlide.Vertex)
      else if u < -EPSILON ∨ u > 1 + EPSILON then
        Except.error IntersectionNone.NonParallelNonIntersecting
      else Except.ok (IntersectionOrSlide.IntersectionWithVectorMultiplier t)

/-- The `(multiplier, edge)` pairs of the probe outcomes that are
`IntersectionWithVectorMultiplier` (slides carry no multiplier). -/
def intersection_multipliers (l : List (IntersectionOrSlide × LineSegment)) :
    List (ℚ × LineSegment) :=
  l.filterMap (fun p =>
    match p.1 with
    | IntersectionOrSlide.IntersectionWithVectorMultiplier m => some (m, p.2)
    | IntersectionOrSlide.Slide _ => none)

/-- Minimum of a list of ratios, `none` for the empty list. -/
def min_ratio : List ℚ → Option ℚ
  | [] => none
  | x :: xs =>
    match min_ratio xs with
    | none => some x
    | some m => some (min x m)

/-- Spec-side description of the `insert_le` accumulation: the minimum
key paired with the value of the last-inserted pair achieving it (the
later-inserted value wins exact ties). -/
def best_le_spec_pair (l : List (ℚ × LineSegment)) : Option (ℚ × LineSegment) :=
  match min_ratio (l.map Prod.fst) with
  | none => none
  | some m => (l.reverse.find? (fun p => decide (p.1 = m))).map (fun p => (m, p.2))

/-- Spec-side description of `movement_collision_test`'s result: `none`
when no probe produced an `Intersection` outcome, otherwise the minimum
intersection ratio and the last-inserted edge achieving it. -/
def best_le_spec (l : List (ℚ × LineSegment)) : Option CollisionInfo :=
  (best_le_spec_pair l).map (fun p => { movement_vector_ratio := p.1, colliding_with := p.2 })

/-- Spec section 4.6's resolution state: either still sweeping with an
accumulated position and a remaining movement, or terminal (Free or
Stopped) at a final position. -/
inductive SweepState where
  | Sweeping (top_left movement : Vec2)
  | Terminal (top_left : Vec2)
deriving DecidableEq, Repr

/-- The position accumulated so far: for a non-terminal state after the
iteration cap this is the best-effort result the loop returns. -/
def SweepState.accumulated : SweepState → Vec2
  | SweepState.Sweeping top_left _ => top_left
  | SweepState.Terminal top_left => top_left

/-- One sweep iteration of the resolution loop as a step function on
`SweepState`; terminal states are absorbing.  The panic case of
`entity_movement_step` is mapped to a terminal state; it is unreachable
for rectangle movers. -/
def sweep_step (static_aabb_quad_tree : SpatialLooseQuadTree) (shape : Shape) :
    SweepState → SweepState
  | SweepState.Terminal top_left => SweepState.Terminal top_left
  | SweepState.Sweeping top_left movement =>
    match entity_movement_step top_left shape movement static_aabb_quad_tree with
    | none => SweepState.Terminal top_left
    | some EntityMovementStep.MoveWithoutCollision =>
      SweepState.Terminal (top_left + movement)
    | some (EntityMovementStep.MoveWithCollision
        { movement_vector_ratio, colliding_with }) =>
      let top_left' := top_left + movement * movement_vector_ratio
      let remaining_ratio := 1 - movement_vector_ratio
      if remaining_ratio < EPSILON_GAME then SweepState.Terminal top_left'
      else
        let movement' := (movement * remaining_ratio).project_on colliding_with.vector
        if movement'.magnitude2 < EPSILON_GAME then SweepState.Terminal top_left'
        else SweepState.Sweeping top_left' movement'

/-- The platform of the demo scene: a 400x20 rectangle (here 200x20) used
as a concrete static solid. -/
def demo_platform_shape : Shape :=
  Shape.AxisAlignedRect (AxisAlignedRect.new (vec2 200 20))

/-- A one-obstacle broad-phase content: the platform stored with its
AABB, as `add_static_solid` stores it. -/
def demo_tree : SpatialLooseQuadTree :=
  [(demo_platform_shape.aabb (vec2 50 100), ⟨1, vec2 50 100, demo_platform_shape⟩)]

/-- The player of the demo scene: a 32x64 rectangle. -/
def demo_player : EntityCommon :=
  ⟨vec2 100 0, Shape.AxisAlignedRect (AxisAlignedRect.new (vec2 32 64)), (1, 0, 0)⟩

/-- A moving entity whose shape is the `LineSegment` variant. -/
def demo_segment_entity : EntityCommon :=
  ⟨vec2 100 0, Shape.LineSegment (LineSegment.new (vec2 0 0) (vec2 10 10)), (0, 1, 0)⟩

/-! ## Theorems -/

/-- C7: `Aabb.union` takes the component-wise min of the two top-lefts
and the component-wise max of the two bottom-rights; the result contains
both inputs, is minimal (any AABB containing both inputs contains the
union), and its size is component-wise at least the size of either
input. -/
theorem aabb_union_spec (a b : Aabb)
    (_ha : 0 ≤ a.size.x ∧ 0 ≤ a.size.y) (_hb : 0 ≤ b.size.x ∧ 0 ≤ b.size.y) :
    (Aabb.union a b).top_left_coord =
        vec2 (min a.top_left_coord.x b.top_left_coord.x)
          (min a.top_left_coord.y b.top_left_coord.y) ∧
    (Aabb.union a b).bottom_right_coord =
        vec2 (max a.bottom_right_coord.x b.bottom_right_coord.x)
          (max a.bottom_right_coord.y b.bottom_right_coord.y) ∧
    (Aabb.union a b).contains a ∧ (Aabb.union a b).contains b ∧
    (∀ c : Aabb, c.contains a → c.contains b → c.contains (Aabb.union a b)) ∧
    a.size.x ≤ (Aabb.union a b).size.x ∧ a.size.y ≤ (Aabb.union a b).size.y ∧
    b.size.x ≤ (Aabb.union a b).size.x ∧ b.size.y ≤ (Aabb.union a b).size.y := by
  have harith : ∀ m M : ℚ, m + (M - m) = M := fun m M => by ring
  have htl : (Aabb.union a b).top_left_coord =
      vec2 (min a.top_left_coord.x b.top_left_coord.x)
        (min a.top_left_coord.y b.top_left_coord.y) := rfl
  have hbr : (Aabb.union a b).bottom_right_coord =
      vec2 (max a.bottom_right_coord.x b.bottom_right_coord.x)
        (max a.bottom_right_coord.y b.bottom_right_coord.y) := by
    simp [Aabb.union, Aabb.bottom_right_coord, Aabb.new, vec2, Vec2.add_def,
      Vec2.sub_def, harith]
  have hsz : (Aabb.union a b).size =
      vec2 (max a.bottom_right_coord.x b.bottom_right_coord.x
          - min a.top_left_coord.x b.top_left_coord.x)
        (max a.bottom_right_coord.y b.bottom_right_coord.y
          - min a.top_left_coord.y b.top_left_coord.y) := rfl
  have habr : ∀ d : Aabb, d.bottom_right_coord.x = d.top_left_coord.x + d.size.x :=
    fun d => rfl
  have habr' : ∀ d : Aabb, d.bottom_right_coord.y = d.top_left_coord.y + d.size.y :=
    fun d => rfl
  refine ⟨htl, hbr, ?_, ?_, ?_, ?_, ?_, ?_, ?_⟩
  · exact ⟨by simp [htl, vec2], by simp [htl, vec2],
      by simp [hbr, vec2], by simp [hbr, vec2]⟩
  · exact ⟨by simp [htl, vec2], by simp [htl, vec2],
      by simp [hbr, vec2], by simp [hbr, vec2]⟩
  · rintro c ⟨h1, h2, h3, h4⟩ ⟨h5, h6, h7, h8⟩
    refine ⟨?_, ?_, ?_, ?_⟩
    · simp only [htl, vec2]; exact le_min h1 h5
    · simp only [htl, vec2]; exact le_min h2 h6
    · simp only [hbr, vec2]; exact max_le h3 h7
    · simp only [hbr, vec2]; exact max_le h4 h8
  · have h1 := le_max_left a.bottom_right_coord.x b.bottom_right_coord.x
    have h2 := min_le_left a.top_left_coord.x b.top_left_coord.x
    have h3 := habr a
    simp only [hsz, vec2]
    linarith
  · have h1 := le_max_left a.bottom_right_coord.y b.bottom_right_coord.y
    have h2 := min_le_left a.top_left_coord.y b.top_left_coord.y
    have h3 := habr' a
    simp only [hsz, vec2]
    linarith
  · have h1 := le_max_right a.bottom_right_coord.x b.bottom_right_coord.x
    have h2 := min_le_right a.top_left_coord.x b.top_left_coord.x
    have h3 := habr b
    simp only [hsz, vec2]
    linarith
  · have h1 := le_max_right a.bottom_right_coord.y b.bottom_right_coord.y
    have h2 := min_le_right a.top_left_coord.y b.top_left_coord.y
    have h3 := habr' b
    simp only [hsz, vec2]
    linarith

/-- C7 witness: the union of two concrete boxes contains the first box,
and a concrete larger box containing both inputs contains the union. -/
theorem aabb_union_spec_witness :
    (0 ≤ (Aabb.new (vec2 0 0) (vec2 2 3)).size.x ∧
      0 ≤ (Aabb.new (vec2 0 0) (vec2 2 3)).size.y) ∧
    (0 ≤ (Aabb.new (vec2 5 1) (vec2 4 1)).size.x ∧
      0 ≤ (Aabb.new (vec2 5 1) (vec2 4 1)).size.y) ∧
    (Aabb.union (Aabb.new (vec2 0 0) (vec2 2 3))
        (Aabb.new (vec2 5 1) (vec2 4 1))).contains
      (Aabb.new (vec2 0 0) (vec2 2 3)) ∧
    (Aabb.new (vec2 (-1) (-1)) (vec2 20 20)).contains
      (Aabb.union (Aabb.new (vec2 0 0) (vec2 2 3))
        (Aabb.new (vec2 5 1) (vec2 4 1))) := by
  have h := aabb_union_spec (Aabb.new (vec2 0 0) (vec2 2 3))
    (Aabb.new (vec2 5 1) (vec2 4 1))
    (by constructor <;> norm_num [Aabb.new, vec2])
    (by constructor <;> norm_num [Aabb.new, vec2])
  refine ⟨⟨by norm_num [Aabb.new, vec2], by norm_num [Aabb.new, vec2]⟩,
    ⟨by norm_num [Aabb.new, vec2], by norm_num [Aabb.new, vec2]⟩,
    h.2.2.1, h.2.2.2.2.1 _ ?_ ?_⟩ <;>
    norm_num [Aabb.contains, Aabb.new, Aabb.bottom_right_coord, vec2, Vec2.add_def]

/-- C4: `AxisAlignedRect.for_each_vertex_facing` emits exactly the
spec's direction-sign case analysis: for `direction.y > 0` the bottom
corners plus the top corner on the side of `direction.x`'s sign;
mirrored for `direction.y < 0`; for `direction.y = 0` only the two
corners of the vertical edge facing `direction.x`'s sign, and no
vertices at all when `direction.x = 0` too. -/
theorem for_each_vertex_facing_mem_iff (r : AxisAlignedRect) (d p : Vec2) :
    p ∈ r.for_each_vertex_facing d ↔
      ((d.y > 0 ∧ (p = r.bottom_left ∨ p = r.bottom_right ∨
          (d.x > 0 ∧ p = r.top_right) ∨ (d.x < 0 ∧ p = r.top_left))) ∨
       (d.y < 0 ∧ (p = r.top_left ∨ p = r.top_right ∨
          (d.x > 0 ∧ p = r.bottom_right) ∨ (d.x < 0 ∧ p = r.bottom_left))) ∨
       (d.y = 0 ∧ ((d.x > 0 ∧ (p = r.top_right ∨ p = r.bottom_right)) ∨
          (d.x < 0 ∧ (p = r.top_left ∨ p = r.bottom_left))))) := by
  unfold AxisAlignedRect.for_each_vertex_facing
  rcases lt_trichotomy d.y 0 with hy | hy | hy
  · have hy1 : ¬ d.y > 0 := by linarith
    have hy2 : d.y ≠ 0 := ne_of_lt hy
    rcases lt_trichotomy d.x 0 with hx | hx | hx
    · have hx1 : ¬ d.x > 0 := by linarith
      simp [hy, hy1, hy2, hx, hx1]
      try tauto
    · have hx1 : ¬ d.x > 0 := by simp [hx]
      have hx2 : ¬ d.x < 0 := by simp [hx]
      simp [hy, hy1, hy2, hx1, hx2]
      try tauto
    · have hx1 : ¬ d.x < 0 := by linarith
      simp [hy, hy1, hy2, hx, hx1]
      try tauto
  · have hy1 : ¬ d.y > 0 := by simp [hy]
    have hy2 : ¬ d.y < 0 := by simp [hy]
    rcases lt_trichotomy d.x 0 with hx | hx | hx
    · have hx1 : ¬ d.x > 0 := by linarith
      simp [hy, hy1, hy2, hx, hx1]
    · have hx1 : ¬ d.x > 0 := by simp [hx]
      have hx2 : ¬ d.x < 0 := by simp [hx]
      simp [hy, hy1, hy2, hx1, hx2]
    · have hx1 : ¬ d.x < 0 := by linarith
      simp [hy, hy1, hy2, hx, hx1]
  · have hy1 : ¬ d.y < 0 := by linarith
    have hy2 : d.y ≠ 0 := ne_of_gt hy
    rcases lt_trichotomy d.x 0 with hx | hx | hx
    · have hx1 : ¬ d.x > 0 := by linarith
      simp [hy, hy1, hy2, hx, hx1]
      try tauto
    · have hx1 : ¬ d.x > 0 := by simp [hx]
      have hx2 : ¬ d.x < 0 := by simp [hx]
      simp [hy, hy1, hy2, hx1, hx2]
      try tauto
    · have hx1 : ¬ d.x < 0 := by linarith
      simp [hy, hy1, hy2, hx, hx1]
      try tauto

/-- C8: `vertex_edge` hits its `unimplemented!()` arm exactly when the
cross product of the vertex movement and the edge vector is zero
(movement parallel to the tested edge); every input with a nonzero
cross product reaches a defined `Option` result. -/
theorem vertex_edge_unhandled_iff (vertex vertex_movement : IVec2)
    (edge : ILineSegment) :
    vertex_edge vertex vertex_movement edge = VertexEdgeResult.unhandled ↔
      vector2_cross_product_int vertex_movement edge.vector = 0 := by
  simp only [vertex_edge]
  split_ifs with h1 h2 h3 h4 h5 <;> simp_all

/-- C9: `Shape::movement_collision_test` panics exactly when the moving
shape is the `LineSegment` variant, regardless of the stationary shape,
the positions, or the movement vector; a moving `AxisAlignedRect`
always produces a normal `Option<CollisionInfo>` result. -/
theorem shape_movement_collision_test_panic_iff (moving stationary : Shape)
    (position stationary_position movement_vector : Vec2) :
    moving.movement_collision_test position stationary stationary_position
        movement_vector = none ↔
      ∃ seg, moving = Shape.LineSegment seg := by
  cases moving <;> cases stationary <;> simp [Shape.movement_collision_test]

/-- C3 counterexample: for the segments (0,0)-(1,0) and
(1/2,1/1000)-(1/2,1001/1000) the computed `u` is exactly `-EPSILON`,
which lies outside `[0,1]`, yet `intersection` returns
`Intersection(1/2)` instead of the claimed
`NoIntersection(NonParallelNonIntersecting)` (and it is not within
`EPSILON` of 0 or 1 under the strict checks either). -/
theorem intersection_u_boundary_cex :
    vector2_cross_product
        ((LineSegment.new (vec2 (1/2) (1/1000)) (vec2 (1/2) (1001/1000))).start
          - (LineSegment.new (vec2 0 0) (vec2 1 0)).start)
        ((LineSegment.new (vec2 0 0) (vec2 1 0)).vector)
      / vector2_cross_product ((LineSegment.new (vec2 0 0) (vec2 1 0)).vector)
        ((LineSegment.new (vec2 (1/2) (1/1000)) (vec2 (1/2) (1001/1000))).vector)
      = -(1/1000) ∧
    ¬ ((0 : ℚ) ≤ -(1/1000)) ∧
    (LineSegment.new (vec2 0 0) (vec2 1 0)).intersection
        (LineSegment.new (vec2 (1/2) (1/1000)) (vec2 (1/2) (1001/1000)))
      ≠ Except.error IntersectionNone.NonParallelNonIntersecting ∧
    (LineSegment.new (vec2 0 0) (vec2 1 0)).intersection
        (LineSegment.new (vec2 (1/2) (1/1000)) (vec2 (1/2) (1001/1000)))
      = Except.ok (IntersectionOrSlide.IntersectionWithVectorMultiplier (1/2)) := by
  have heval : (LineSegment.new (vec2 0 0) (vec2 1 0)).intersection
      (LineSegment.new (vec2 (1/2) (1/1000)) (vec2 (1/2) (1001/1000)))
      = Except.ok (IntersectionOrSlide.IntersectionWithVectorMultiplier (1/2)) := by
    norm_num [LineSegment.intersection, LineSegment.new, LineSegment.vector,
      vector2_cross_product, Vec2.dot, Vec2.sub_def, Vec2.add_def, vec2, EPSILON,
      abs_of_nonneg, abs_of_nonpos]
  refine ⟨?_, by norm_num, by rw [heval]; simp, heval⟩
  norm_num [LineSegment.new, LineSegment.vector, vector2_cross_product,
    Vec2.sub_def, vec2]

/-- C3 (amended): `LineSegment.intersection` implements the spec's
classifier exactly, with the `u` window as the code checks it: `u`
strictly below `-EPSILON` or strictly above `1 + EPSILON` is
`NoIntersection`; at exactly `u = -EPSILON` or `u = 1 + EPSILON` the
result is `Intersection(t)`.  The crossing example (0,0)-(1,1) vs
(1,0)-(0,1) yields ratio 1/2. -/
theorem intersection_matches_spec :
    (∀ a b : LineSegment, a.intersection b = intersection_spec a b) ∧
    (LineSegment.new (vec2 0 0) (vec2 1 1)).intersection
        (LineSegment.new (vec2 1 0) (vec2 0 1))
      = Except.ok (IntersectionOrSlide.IntersectionWithVectorMultiplier (1/2)) := by
  constructor
  · intro a b
    have hleaf : ∀ t0 t1 r2 : ℚ,
        (if t0 < t1 then
          (if t0 ≤ r2 ∧ t1 ≥ 0 then
            (Except.ok (IntersectionOrSlide.Slide IntersectionSlide.Colinear)
              : IntersectionResult)
          else Except.error IntersectionNone.ColinearNonOverlapping)
        else
          (if t1 ≤ r2 ∧ t0 ≥ 0 then
            Except.ok (IntersectionOrSlide.Slide IntersectionSlide.Colinear)
          else Except.error IntersectionNone.ColinearNonOverlapping)) =
        (if min t0 t1 ≤ r2 ∧ 0 ≤ max t0 t1 then
          Except.ok (IntersectionOrSlide.Slide IntersectionSlide.Colinear)
        else Except.error IntersectionNone.ColinearNonOverlapping) := by
      intro t0 t1 r2
      rcases lt_or_ge t0 t1 with h | h
      · rw [if_pos h, min_eq_left (le_of_lt h), max_eq_right (le_of_lt h)]
      · rw [if_neg (not_lt.mpr h), min_eq_right h, max_eq_left h]
    simp only [LineSegment.intersection, intersection_spec]
    rw [hleaf]
  · norm_num [LineSegment.intersection, LineSegment.new, LineSegment.vector,
      vector2_cross_product, Vec2.dot, Vec2.sub_def, Vec2.add_def, vec2, EPSILON,
      abs_of_nonneg, abs_of_nonpos]

theorem min_ratio_eq_none_iff (l : List ℚ) : min_ratio l = none ↔ l = [] := by
  cases l with
  | nil => simp [min_ratio]
  | cons x xs => cases h : min_ratio xs <;> simp [min_ratio, h]

theorem min_ratio_mem (l : List ℚ) (m : ℚ) (h : min_ratio l = some m) : m ∈ l := by
  induction l generalizing m with
  | nil => simp [min_ratio] at h
  | cons x xs ih =>
    rw [min_ratio] at h
    cases h2 : min_ratio xs with
    | none => rw [h2] at h; simp at h; simp [h]
    | some m2 =>
      rw [h2] at h
      simp at h
      rcases le_total x m2 with hle | hle
      · rw [min_eq_left hle] at h; simp [h]
      · rw [min_eq_right hle] at h
        right
        exact h ▸ ih m2 h2

theorem min_ratio_le (l : List ℚ) (m : ℚ) (h : min_ratio l = some m) :
    ∀ x ∈ l, m ≤ x := by
  induction l generalizing m with
  | nil => simp [min_ratio] at h
  | cons x xs ih =>
    rw [min_ratio] at h
    cases h2 : min_ratio xs with
    | none =>
      rw [h2] at h
      have hx : x = m := by simpa using h
      have hxs : xs = [] := (min_ratio_eq_none_iff xs).mp h2
      subst hx hxs
      simp
    | some m2 =>
      rw [h2] at h
      simp at h
      intro y hy
      rcases List.mem_cons.mp hy with hy | hy
      · rw [hy]; exact h ▸ min_le_left x m2
      · calc m ≤ m2 := h ▸ min_le_right x m2
          _ ≤ y := ih m2 h2 y hy

theorem best_pair_cons (k : ℚ) (v : LineSegment) (l : List (ℚ × LineSegment)) :
    best_le_spec_pair ((k, v) :: l) =
      match best_le_spec_pair l with
      | none => some (k, v)
      | some p => if p.1 ≤ k then some p else some (k, v) := by
  cases hm : min_ratio (l.map Prod.fst) with
  | none =>
    have hl : l = [] := by
      have := (min_ratio_eq_none_iff (l.map Prod.fst)).mp hm
      simpa using this
    subst hl
    simp [best_le_spec_pair, min_ratio]
  | some m =>
    have hBl : best_le_spec_pair l =
        (l.reverse.find? (fun p => decide (p.1 = m))).map (fun p => (m, p.2)) := by
      rw [best_le_spec_pair, hm]
    have hmin : min_ratio (((k, v) :: l).map Prod.fst) = some (min k m) := by
      rw [List.map_cons, min_ratio, hm]
    have hL : best_le_spec_pair ((k, v) :: l) =
        ((l.reverse ++ [(k, v)]).find? (fun p => decide (p.1 = min k m))).map
          (fun p => (min k m, p.2)) := by
      conv_lhs => rw [best_le_spec_pair, List.reverse_cons, hmin]
    rcases le_or_lt m k with hmk | hmk
    · rw [min_eq_right hmk] at hL
      have hsome : (l.reverse.find? (fun p => decide (p.1 = m))).isSome := by
        rw [List.find?_isSome]
        obtain ⟨pr, hpr, hpr1⟩ := List.mem_map.mp (min_ratio_mem _ _ hm)
        exact ⟨pr, List.mem_reverse.mpr hpr, by simp [hpr1]⟩
      obtain ⟨q, hq⟩ := Option.isSome_iff_exists.mp hsome
      rw [hL, List.find?_append, hq, hBl, hq]
      simp [hmk]
    · rw [min_eq_left (le_of_lt hmk)] at hL
      have hnone : l.reverse.find? (fun p => decide (p.1 = k)) = none := by
        rw [List.find?_eq_none]
        intro p hp
        have hp1 : m ≤ p.1 :=
          min_ratio_le _ _ hm p.1
            (List.mem_map.mpr ⟨p, List.mem_reverse.mp hp, rfl⟩)
        have hne : p.1 ≠ k := by intro hcon; rw [hcon] at hp1; linarith
        simp [hne]
      rw [hL, List.find?_append, hnone, hBl]
      cases hfind : l.reverse.find? (fun p => decide (p.1 = m)) with
      | none => simp [List.find?_cons]
      | some q =>
        have hnle : ¬ m ≤ k := not_le.mpr hmk
        simp [List.find?_cons, hnle]

theorem foldl_insert_le_some (l : List (ℚ × LineSegment)) :
    ∀ (k : ℚ) (v : LineSegment),
      l.foldl (fun best p => BestMap.insert_le best p.1 p.2) (some (k, v)) =
        match best_le_spec_pair l with
        | none => some (k, v)
        | some p => if p.1 ≤ k then some p else some (k, v) := by
  induction l with
  | nil => intro k v; simp [best_le_spec_pair, min_ratio]
  | cons hd rest ih =>
    intro k v
    obtain ⟨k2, v2⟩ := hd
    rw [List.foldl_cons, best_pair_cons]
    show List.foldl _ (BestMap.insert_le (some (k, v)) k2 v2) rest = _
    rw [BestMap.insert_le]
    rcases le_or_lt k2 k with hk2k | hk2k
    · rw [if_pos hk2k, ih k2 v2]
      cases hB : best_le_spec_pair rest with
      | none => simp [hk2k]
      | some p =>
        obtain ⟨m, w⟩ := p
        rcases le_or_lt m k2 with hm2 | hm2
        · simp only [hm2, if_pos]
          have : m ≤ k := le_trans hm2 hk2k
          simp [this]
        · have h1 : ¬ m ≤ k2 := not_le.mpr hm2
          simp [h1, hk2k]
    · rw [if_neg (not_le.mpr hk2k), ih k v]
      cases hB : best_le_spec_pair rest with
      | none =>
        have : ¬ k2 ≤ k := not_le.mpr hk2k
        simp [this]
      | some p =>
        obtain ⟨m, w⟩ := p
        rcases le_or_lt m k2 with hm2 | hm2
        · simp [hm2]
        · have h1 : ¬ m ≤ k2 := not_le.mpr hm2
          have h2 : ¬ m ≤ k := not_le.mpr (lt_trans hk2k hm2)
          have h3 : ¬ k2 ≤ k := not_le.mpr hk2k
          simp [h1, h2, h3]

theorem foldl_insert_le_none (l : List (ℚ × LineSegment)) :
    l.foldl (fun best p => BestMap.insert_le best p.1 p.2) none =
      best_le_spec_pair l := by
  cases l with
  | nil => simp [best_le_spec_pair, min_ratio]
  | cons hd rest =>
    obtain ⟨k, v⟩ := hd
    rw [List.foldl_cons]
    show List.foldl _ (BestMap.insert_le none k v) rest = _
    rw [BestMap.insert_le, foldl_insert_le_some, best_pair_cons]
    rfl

theorem fold_match_eq_fold_insert_le (l : List (IntersectionOrSlide × LineSegment))
    (acc : BestMap ℚ LineSegment) :
    l.foldl
        (fun best p =>
          match p.1 with
          | IntersectionOrSlide.IntersectionWithVectorMultiplier current_scale =>
            best.insert_le current_scale p.2
          | IntersectionOrSlide.Slide _ => best) acc =
      (intersection_multipliers l).foldl
        (fun best p => BestMap.insert_le best p.1 p.2) acc := by
  induction l generalizing acc with
  | nil => rfl
  | cons hd rest ih =>
    obtain ⟨i, e⟩ := hd
    cases i with
    | IntersectionWithVectorMultiplier m =>
      rw [List.foldl_cons]
      show List.foldl _ (BestMap.insert_le acc m e) rest = _
      rw [ih]
      rw [show intersection_multipliers
          ((IntersectionOrSlide.IntersectionWithVectorMultiplier m, e) :: rest)
        = (m, e) :: intersection_multipliers rest from rfl]
      rw [List.foldl_cons]
    | Slide s =>
      rw [List.foldl_cons]
      show List.foldl _ acc rest = _
      rw [ih]
      rw [show intersection_multipliers ((IntersectionOrSlide.Slide s, e) :: rest)
        = intersection_multipliers rest from rfl]

/-- C2: the generic `Collide::movement_collision_test` equals the
spec-side description: `none` exactly when no vertex-vs-edge probe in
either sweep direction produced an `Intersection` outcome (slides never
block and contribute no ratio); otherwise `some` of the minimum
intersection ratio paired with the last-inserted edge achieving that
minimum under the insert-only-if-new-le-current-best rule. -/
theorem movement_collision_test_best_le_spec {A B : Type} [Collide A] [Collide B]
    (shape : A) (position : Vec2) (stationary_shape : B)
    (stationary_position movement : Vec2) :
    Collide.movement_collision_test shape position stationary_shape
        stationary_position movement =
      best_le_spec (intersection_multipliers
        (Collide.for_each_movement_intersection shape position stationary_shape
          stationary_position movement)) := by
  simp only [Collide.movement_collision_test, BestMap.into_key_and_value,
    BestMap.new]
  rw [fold_match_eq_fold_insert_le, foldl_insert_le_none]
  cases h : best_le_spec_pair (intersection_multipliers
      (Collide.for_each_movement_intersection shape position stationary_shape
        stationary_position movement)) with
  | none => simp [best_le_spec, h]
  | some p => simp [best_le_spec, h]

/-- C6: resolving with a zero movement vector returns the input
position unchanged, for any broad-phase content; in particular, if a
resolve produced some position, resolving again from that position with
a zero movement vector returns it unchanged. -/
theorem top_left_after_movement_zero_movement (tree : SpatialLooseQuadTree)
    (common : EntityCommon) :
    top_left_after_movement tree common (vec2 0 0) = some common.top_left ∧
    ∀ movement new_top_left,
      top_left_after_movement tree common movement = some new_top_left →
      top_left_after_movement tree { common with top_left := new_top_left }
          (vec2 0 0) = some new_top_left := by
  constructor
  · rw [top_left_after_movement,
      if_pos (by norm_num [Vec2.dot, vec2, EPSILON_GAME])]
  · intro movement new_top_left _
    rw [top_left_after_movement,
      if_pos (by norm_num [Vec2.dot, vec2, EPSILON_GAME])]

/-- C6 witness: concrete demo scene, zero movement from the start
position and from a re-resolved position. -/
theorem top_left_after_movement_zero_movement_witness :
    top_left_after_movement demo_tree demo_player (vec2 0 0)
        = some (vec2 100 0) ∧
    top_left_after_movement demo_tree { demo_player with top_left := vec2 100 0 }
        (vec2 0 0) = some (vec2 100 0) := by
  have h := top_left_after_movement_zero_movement demo_tree demo_player
  have h1 : top_left_after_movement demo_tree demo_player (vec2 0 0)
      = some (vec2 100 0) := by
    have := h.1
    simpa [demo_player] using this
  exact ⟨h1, h.2 (vec2 0 0) (vec2 100 0) h1⟩

/-- C10: any movement whose squared magnitude is below `1/10000`
(the game's `EPSILON`), not only the zero vector, returns the input
position unchanged — and the result does not depend on the broad-phase
content, which is never consulted. -/
theorem top_left_after_movement_dead_zone (tree : SpatialLooseQuadTree)
    (common : EntityCommon) (movement : Vec2)
    (h : movement.magnitude2 < 1/10000) :
    top_left_after_movement tree common movement = some common.top_left := by
  rw [top_left_after_movement,
    if_pos (by simpa [Vec2.magnitude2, EPSILON_GAME] using h)]

/-- C10 witness: the nonzero movement `(1/200, 0)` is inside the dead
zone and leaves the demo player unmoved. -/
theorem top_left_after_movement_dead_zone_witness :
    (vec2 (1/200) 0).magnitude2 < 1/10000 ∧
    top_left_after_movement demo_tree demo_player (vec2 (1/200) 0)
      = some (vec2 100 0) := by
  refine ⟨by norm_num [Vec2.magnitude2, Vec2.dot, vec2], ?_⟩
  have := top_left_after_movement_dead_zone demo_tree demo_player
    (vec2 (1/200) 0) (by norm_num [Vec2.magnitude2, Vec2.dot, vec2])
  simpa [demo_player] using this

/-- Unfolding equation for one loop iteration of `top_left_after_movement`. -/
theorem top_left_after_movement_loop_succ (tree : SpatialLooseQuadTree)
    (shape : Shape) (n : Nat) (top_left movement : Vec2) :
    top_left_after_movement_loop tree shape (n + 1) top_left movement =
      match entity_movement_step top_left shape movement tree with
      | none => none
      | some EntityMovementStep.MoveWithoutCollision => some (top_left + movement)
      | some (EntityMovementStep.MoveWithCollision
          { movement_vector_ratio, colliding_with }) =>
        let top_left' := top_left + movement * movement_vector_ratio
        let remaining_ratio := 1 - movement_vector_ratio
        if remaining_ratio < EPSILON_GAME then some top_left'
        else
          let remaining_vector := movement * remaining_ratio
          let movement' := remaining_vector.project_on colliding_with.vector
          if movement'.magnitude2 < EPSILON_GAME then some top_left'
          else top_left_after_movement_loop tree shape n top_left' movement' :=
  rfl

theorem shape_mct_rect_ne_none (r : AxisAlignedRect) (position : Vec2)
    (stationary : Shape) (stationary_position movement : Vec2) :
    (Shape.AxisAlignedRect r).movement_collision_test position stationary
      stationary_position movement ≠ none := by
  cases stationary <;> simp [Shape.movement_collision_test]

theorem collision_fold_rect_isSome (r : AxisAlignedRect) (top_left movement : Vec2)
    (candidates : List (Aabb × SpatialInfo)) :
    ∀ acc : BestMap ℚ LineSegment,
      ∃ b, candidates.foldl
          (collision_fold_step (Shape.AxisAlignedRect r) top_left movement)
          (some acc) = some b := by
  induction candidates with
  | nil => intro acc; exact ⟨acc, rfl⟩
  | cons entry rest ih =>
    intro acc
    rw [List.foldl_cons]
    cases hmct : (Shape.AxisAlignedRect r).movement_collision_test top_left
        entry.2.shape entry.2.position movement with
    | none => exact absurd hmct (shape_mct_rect_ne_none r top_left entry.2.shape
        entry.2.position movement)
    | some res =>
      cases res with
      | none =>
        have hstep : collision_fold_step (Shape.AxisAlignedRect r) top_left
            movement (some acc) entry = some acc := by
          rw [collision_fold_step, hmct]
        rw [hstep]; exact ih acc
      | some ci =>
        have hstep : collision_fold_step (Shape.AxisAlignedRect r) top_left
            movement (some acc) entry
            = some (acc.insert_lt ci.movement_vector_ratio ci.colliding_with) := by
          rw [collision_fold_step, hmct]
        rw [hstep]; exact ih _

theorem entity_movement_step_rect_isSome (top_left : Vec2) (r : AxisAlignedRect)
    (movement : Vec2) (tree : SpatialLooseQuadTree) :
    ∃ step, entity_movement_step top_left (Shape.AxisAlignedRect r) movement tree
      = some step := by
  simp only [entity_movement_step]
  obtain ⟨b, hb⟩ := collision_fold_rect_isSome r top_left movement
    (tree.for_each_intersection
      (((Shape.AxisAlignedRect r).aabb top_left).union
        ((Shape.AxisAlignedRect r).aabb (top_left + movement))))
    (BestMap.new ℚ LineSegment)
  rw [hb]
  cases hkv : b.into_key_and_value with
  | none =>
    exact ⟨EntityMovementStep.MoveWithoutCollision, by dsimp only; rw [hkv]⟩
  | some kv =>
    obtain ⟨k1, k2⟩ := kv
    exact ⟨EntityMovementStep.MoveWithCollision ⟨k1, k2⟩, by dsimp only; rw [hkv]⟩

theorem sweep_step_terminal_absorb (tree : SpatialLooseQuadTree) (shape : Shape)
    (n : Nat) (top_left : Vec2) :
    (sweep_step tree shape)^[n] (SweepState.Terminal top_left)
      = SweepState.Terminal top_left := by
  induction n with
  | zero => rfl
  | succ n ih => rw [Function.iterate_succ_apply, show sweep_step tree shape
      (SweepState.Terminal top_left) = SweepState.Terminal top_left from rfl, ih]

theorem loop_eq_iterate_sweep (tree : SpatialLooseQuadTree) (r : AxisAlignedRect) :
    ∀ (n : Nat) (top_left movement : Vec2),
      top_left_after_movement_loop tree (Shape.AxisAlignedRect r) n top_left movement
        = some (((sweep_step tree (Shape.AxisAlignedRect r))^[n]
            (SweepState.Sweeping top_left movement)).accumulated) := by
  intro n
  induction n with
  | zero => intro tl mv; rfl
  | succ n ih =>
    intro tl mv
    obtain ⟨step, hstep⟩ := entity_movement_step_rect_isSome tl r mv tree
    rw [top_left_after_movement_loop_succ, hstep, Function.iterate_succ_apply]
    rw [show sweep_step tree (Shape.AxisAlignedRect r) (SweepState.Sweeping tl mv)
        = match entity_movement_step tl (Shape.AxisAlignedRect r) mv tree with
          | none => SweepState.Terminal tl
          | some EntityMovementStep.MoveWithoutCollision =>
            SweepState.Terminal (tl + mv)
          | some (EntityMovementStep.MoveWithCollision
              { movement_vector_ratio, colliding_with }) =>
            let top_left' := tl + mv * movement_vector_ratio
            let remaining_ratio := 1 - movement_vector_ratio
            if remaining_ratio < EPSILON_GAME then SweepState.Terminal top_left'
            else
              let movement' := (mv * remaining_ratio).project_on
                colliding_with.vector
              if movement'.magnitude2 < EPSILON_GAME then
                SweepState.Terminal top_left'
              else SweepState.Sweeping top_left' movement' from rfl, hstep]
    cases step with
    | MoveWithoutCollision =>
      dsimp only
      rw [sweep_step_terminal_absorb]
      rfl
    | MoveWithCollision ci =>
      obtain ⟨ratio, edge⟩ := ci
      dsimp only
      by_cases h1 : 1 - ratio < EPSILON_GAME
      · rw [if_pos h1, if_pos h1, sweep_step_terminal_absorb]
        rfl
      · rw [if_neg h1, if_neg h1]
        by_cases h2 : ((mv * (1 - ratio)).project_on edge.vector).magnitude2
            < EPSILON_GAME
        · rw [if_pos h2, if_pos h2, sweep_step_terminal_absorb]
          rfl
        · rw [if_neg h2, if_neg h2, ih]

/-- C5 (amended): for every rectangle mover, position, movement and
broad-phase content, the movement resolution equals at most
`MAX_ITERATIONS = 16` applications of the single-sweep step function
(with terminal states absorbing), and when the cap is reached without a
Free/Stopped terminal the accumulated position of the final state is
returned; the function is total, so termination is deterministic.  The
restriction to rectangle movers is forced by the counterexample: a
`LineSegment` mover panics inside the collision test. -/
theorem top_left_after_movement_bounded_iterations (tree : SpatialLooseQuadTree)
    (r : AxisAlignedRect) (top_left : Vec2) (colour : ℚ × ℚ × ℚ)
    (movement : Vec2) :
    top_left_after_movement tree ⟨top_left, Shape.AxisAlignedRect r, colour⟩
        movement =
      some (if movement.dot movement < EPSILON_GAME then top_left
        else ((sweep_step tree (Shape.AxisAlignedRect r))^[MAX_ITERATIONS]
          (SweepState.Sweeping top_left movement)).accumulated) := by
  rw [top_left_after_movement]
  by_cases h : movement.dot movement < EPSILON_GAME
  · rw [if_pos h, if_pos h]
  · rw [if_neg h, if_neg h]
    exact loop_eq_iterate_sweep tree r MAX_ITERATIONS top_left movement

/-- C5 counterexample: with a `LineSegment` mover and an overlapping
broad-phase candidate, the resolution panics (embedded as `none`)
instead of returning a position, refuting the claim for "every shape". -/
theorem top_left_after_movement_panic_cex :
    top_left_after_movement demo_tree demo_segment_entity (vec2 0 200) = none := by
  rw [top_left_after_movement,
    if_neg (by norm_num [Vec2.dot, vec2, EPSILON_GAME]),
    show MAX_ITERATIONS = 15 + 1 from rfl, top_left_after_movement_loop_succ]
  have hstep : entity_movement_step demo_segment_entity.top_left
      demo_segment_entity.shape (vec2 0 200) demo_tree = none := by
    norm_num [entity_movement_step, demo_segment_entity, demo_tree,
      demo_platform_shape, SpatialLooseQuadTree.for_each_intersection,
      List.filter_cons, List.filter_nil, List.foldl_cons, List.foldl_nil,
      collision_fold_step, Shape.movement_collision_test, Shape.aabb,
      LineSegment.aabb, AxisAlignedRect.aabb, AxisAlignedRect.new,
      LineSegment.new, Aabb.union, Aabb.new, Aabb.is_intersecting,
      Aabb.bottom_right_coord, Vec2.add_def, Vec2.sub_def, vec2,
      BestMap.new]
  rw [hstep]

/-- Characterization of `LineSegment.intersection` for a vertical probe
segment against a horizontal edge, with the intersection parameters in
closed form: `t = (ey - ay)/dv` and `u = (ax - ex)/(ex2 - ex)`. -/
theorem intersection_vert_horiz (ax ay dv ex ey ex2 : ℚ)
    (h : EPSILON ≤ |dv * (ex2 - ex)|) :
    (LineSegment.new (vec2 ax ay) (vec2 ax (ay + dv))).intersection
        (LineSegment.new (vec2 ex ey) (vec2 ex2 ey)) =
      (if (ey - ay)/dv < -EPSILON ∨ (ey - ay)/dv > 1 + EPSILON then
        Except.error IntersectionNone.NonParallelNonIntersecting
      else if |(ax - ex)/(ex2 - ex)| < EPSILON
          ∨ |(ax - ex)/(ex2 - ex) - 1| < EPSILON then
        Except.ok (IntersectionOrSlide.Slide IntersectionSlide.Vertex)
      else if (ax - ex)/(ex2 - ex) < -EPSILON
          ∨ (ax - ex)/(ex2 - ex) > 1 + EPSILON then
        Except.error IntersectionNone.NonParallelNonIntersecting
      else Except.ok (IntersectionOrSlide.IntersectionWithVectorMultiplier
        ((ey - ay)/dv))) := by
  have hprod : dv * (ex2 - ex) ≠ 0 := by
    intro h0
    rw [h0] at h
    norm_num [EPSILON] at h
  have hdv : dv ≠ 0 := fun h0 => hprod (by rw [h0]; ring)
  have hex : ex2 - ex ≠ 0 := fun h0 => hprod (by rw [h0]; ring)
  have hr : (LineSegment.new (vec2 ax ay) (vec2 ax (ay + dv))).vector
      = vec2 0 dv := by
    simp [LineSegment.new, LineSegment.vector, vec2, Vec2.sub_def]
  have hs : (LineSegment.new (vec2 ex ey) (vec2 ex2 ey)).vector
      = vec2 (ex2 - ex) 0 := by
    simp [LineSegment.new, LineSegment.vector, vec2, Vec2.sub_def]
  have hpq : (LineSegment.new (vec2 ex ey) (vec2 ex2 ey)).start
      - (LineSegment.new (vec2 ax ay) (vec2 ax (ay + dv))).start
      = vec2 (ex - ax) (ey - ay) := by
    simp [LineSegment.new, vec2, Vec2.sub_def]
  simp only [LineSegment.intersection, hr, hs, hpq]
  have hrxs : vector2_cross_product (vec2 0 dv) (vec2 (ex2 - ex) 0)
      = -(dv * (ex2 - ex)) := by
    simp only [vector2_cross_product, vec2]
    ring
  rw [hrxs]
  rw [if_neg (by rw [abs_neg]; exact not_lt.mpr h)]
  have hct : vector2_cross_product (vec2 (ex - ax) (ey - ay)) (vec2 (ex2 - ex) 0)
      = -((ey - ay) * (ex2 - ex)) := by
    simp only [vector2_cross_product, vec2]
    ring
  have hcu : vector2_cross_product (vec2 (ex - ax) (ey - ay)) (vec2 0 dv)
      = (ex - ax) * dv := by
    simp only [vector2_cross_product, vec2]
    ring
  rw [hct, hcu]
  have ht : -((ey - ay) * (ex2 - ex)) / -(dv * (ex2 - ex)) = (ey - ay)/dv := by
    rw [neg_div_neg_eq]
    exact mul_div_mul_right _ _ hex
  have hu : (ex - ax) * dv / -(dv * (ex2 - ex)) = (ax - ex)/(ex2 - ex) := by
    rw [div_neg]
    rw [show (ex - ax) * dv = dv * (ex - ax) from by ring]
    rw [mul_div_mul_left _ _ hdv]
    rw [show (ax - ex) = -(ex - ax) from by ring, neg_div]
  rw [ht, hu]

/-- Narrow phase of the falling-rectangle scenario: a 32x64 rectangle at
`(px, py)` moving straight down by `v` against a `w`x`h` platform at
`(sx, sy)` collides at ratio `(sy - (py + 64))/v` with the platform's
top edge, when the rectangle lies strictly inside the platform
horizontally (margin 1, `w` at most 1000, so no vertex-slide
degeneracy) and the platform top is inside the swept band. -/
theorem rect_fall_collision_test (px py sx sy w h v : ℚ)
    (hv : 1/100 ≤ v) (hw1000 : w ≤ 1000)
    (hx1 : sx + 1 ≤ px) (hx2 : px + 33 ≤ sx + w)
    (hy1 : py + 64 ≤ sy) (hy2 : sy ≤ py + 64 + v) :
    Collide.movement_collision_test (AxisAlignedRect.new (vec2 32 64)) (vec2 px py)
        (AxisAlignedRect.new (vec2 w h)) (vec2 sx sy) (vec2 0 v)
      = some ⟨(sy - (py + 64))/v, LineSegment.new (vec2 sx sy) (vec2 (sx + w) sy)⟩ := by
  have hv0 : (0:ℚ) < v := lt_of_lt_of_le (by norm_num) hv
  have hnv : -v < 0 := by linarith
  have hnv' : ¬ ((0:ℚ) < -v) := by linarith
  have hw34 : (34:ℚ) ≤ w := by linarith
  have hw0 : (0:ℚ) < w := by linarith
  have hvf : Collide.for_each_vertex_facing (AxisAlignedRect.new (vec2 32 64))
      (vec2 0 v) = [vec2 0 64, vec2 32 64] := by
    simp [Collide.for_each_vertex_facing, AxisAlignedRect.for_each_vertex_facing,
      AxisAlignedRect.new, AxisAlignedRect.bottom_left, AxisAlignedRect.bottom_right,
      vec2, hv0]
  have hef : Collide.for_each_edge_facing (AxisAlignedRect.new (vec2 w h))
      (-(vec2 0 v)) = [LineSegment.new (vec2 0 0) (vec2 w 0)] := by
    simp [Collide.for_each_edge_facing, AxisAlignedRect.for_each_edge_facing,
      AxisAlignedRect.new, AxisAlignedRect.top, AxisAlignedRect.top_left,
      AxisAlignedRect.top_right, vec2, Vec2.neg_def, hnv, hnv']
  have hvfP : Collide.for_each_vertex_facing (AxisAlignedRect.new (vec2 w h))
      (-(vec2 0 v)) = [vec2 0 0, vec2 w 0] := by
    simp [Collide.for_each_vertex_facing, AxisAlignedRect.for_each_vertex_facing,
      AxisAlignedRect.new, AxisAlignedRect.top_left, AxisAlignedRect.top_right,
      vec2, Vec2.neg_def, hnv, hnv']
  have hefM : Collide.for_each_edge_facing (AxisAlignedRect.new (vec2 32 64))
      (vec2 0 v) = [LineSegment.new (vec2 32 64) (vec2 0 64)] := by
    simp [Collide.for_each_edge_facing, AxisAlignedRect.for_each_edge_facing,
      AxisAlignedRect.new, AxisAlignedRect.bottom, AxisAlignedRect.bottom_left,
      AxisAlignedRect.bottom_right, vec2, hv0]
  simp only [Collide.movement_collision_test, Collide.for_each_movement_intersection,
    for_each_single_direction_intersection, hvf, hef, hvfP, hefM,
    List.flatMap_cons, List.flatMap_nil, List.filterMap_cons, List.filterMap_nil,
    List.append_nil, List.nil_append]
  have hSF1 : LineSegment.new (vec2 0 64 + vec2 px py)
      (vec2 0 64 + vec2 px py + vec2 0 v)
      = LineSegment.new (vec2 px (py + 64)) (vec2 px ((py + 64) + v)) := by
    simp only [LineSegment.new, vec2, Vec2.add_def, LineSegment.mk.injEq,
      Vec2.mk.injEq]
    exact ⟨⟨by ring, by ring⟩, by ring, by ring⟩
  have hSF2 : LineSegment.new (vec2 32 64 + vec2 px py)
      (vec2 32 64 + vec2 px py + vec2 0 v)
      = LineSegment.new (vec2 (px + 32) (py + 64))
        (vec2 (px + 32) ((py + 64) + v)) := by
    simp only [LineSegment.new, vec2, Vec2.add_def, LineSegment.mk.injEq,
      Vec2.mk.injEq]
    exact ⟨⟨by ring, by ring⟩, by ring, by ring⟩
  have hSR1 : LineSegment.new (vec2 0 0 + vec2 sx sy)
      (vec2 0 0 + vec2 sx sy + -vec2 0 v)
      = LineSegment.new (vec2 sx sy) (vec2 sx (sy + -v)) := by
    simp only [LineSegment.new, vec2, Vec2.add_def, Vec2.neg_def,
      LineSegment.mk.injEq, Vec2.mk.injEq]
    exact ⟨⟨by ring, by ring⟩, by ring, by ring⟩
  have hSR2 : LineSegment.new (vec2 w 0 + vec2 sx sy)
      (vec2 w 0 + vec2 sx sy + -vec2 0 v)
      = LineSegment.new (vec2 (sx + w) sy) (vec2 (sx + w) (sy + -v)) := by
    simp only [LineSegment.new, vec2, Vec2.add_def, Vec2.neg_def,
      LineSegment.mk.injEq, Vec2.mk.injEq]
    exact ⟨⟨by ring, by ring⟩, by ring, by ring⟩
  have hE1 : (LineSegment.new (vec2 0 0) (vec2 w 0)).add_vector (vec2 sx sy)
      = LineSegment.new (vec2 sx sy) (vec2 (sx + w) sy) := by
    simp only [LineSegment.new, LineSegment.add_vector, vec2, Vec2.add_def,
      LineSegment.mk.injEq, Vec2.mk.injEq]
    exact ⟨⟨by ring, by ring⟩, by ring, by ring⟩
  have hE2 : (LineSegment.new (vec2 32 64) (vec2 0 64)).add_vector (vec2 px py)
      = LineSegment.new (vec2 (px + 32) (py + 64)) (vec2 px (py + 64)) := by
    simp only [LineSegment.new, LineSegment.add_vector, vec2, Vec2.add_def,
      LineSegment.mk.injEq, Vec2.mk.injEq]
    exact ⟨⟨by ring, by ring⟩, by ring, by ring⟩
  rw [hSF1, hSF2, hSR1, hSR2, hE1, hE2]
  have heps : (0:ℚ) < EPSILON := by norm_num [EPSILON]
  have hcF : EPSILON ≤ |v * ((sx + w) - sx)| := by
    rw [show v * ((sx + w) - sx) = v * w from by ring,
      abs_of_pos (mul_pos hv0 hw0)]
    have h34 : (1/100 : ℚ) * 34 ≤ v * w :=
      mul_le_mul hv hw34 (by norm_num) (by linarith)
    rw [EPSILON]
    linarith
  have hcR : EPSILON ≤ |(-v) * (px - (px + 32))| := by
    rw [show (-v) * (px - (px + 32)) = 32 * v from by ring,
      abs_of_pos (by linarith)]
    rw [EPSILON]
    linarith
  rw [intersection_vert_horiz px (py + 64) v sx sy (sx + w) hcF,
    intersection_vert_horiz (px + 32) (py + 64) v sx sy (sx + w) hcF,
    intersection_vert_horiz sx sy (-v) (px + 32) (py + 64) px hcR,
    intersection_vert_horiz (sx + w) sy (-v) (px + 32) (py + 64) px hcR]
  rw [show (sx + w) - sx = w from by ring]
  rw [show (py + 64 - sy) / (-v) = (sy - (py + 64))/v from by
    rw [div_neg, show py + 64 - sy = -(sy - (py + 64)) from by ring, neg_div,
      neg_neg]]
  rw [show (sx - (px + 32)) / (px - (px + 32)) = (px + 32 - sx)/32 from by
    rw [show px - (px + 32) = (-32 : ℚ) from by ring,
      show sx - (px + 32) = -(px + 32 - sx) from by ring, neg_div, div_neg,
      neg_neg]]
  rw [show (sx + w - (px + 32)) / (px - (px + 32)) = (px + 32 - (sx + w))/32 from by
    rw [show px - (px + 32) = (-32 : ℚ) from by ring,
      show sx + w - (px + 32) = -(px + 32 - (sx + w)) from by ring, neg_div,
      div_neg, neg_neg]]
  have ht0 : 0 ≤ (sy - (py + 64))/v := div_nonneg (by linarith) hv0.le
  have ht1 : (sy - (py + 64))/v ≤ 1 := by
    rw [div_le_one hv0]
    linarith
  have hctF : ¬((sy - (py + 64))/v < -EPSILON
      ∨ (sy - (py + 64))/v > 1 + EPSILON) := by
    push_neg
    constructor <;> linarith
  have hu1lo : EPSILON ≤ (px - sx)/w := by
    rw [le_div_iff₀ hw0, EPSILON]
    linarith
  have hu1hi : (px - sx)/w ≤ 1 - EPSILON := by
    rw [div_le_iff₀ hw0, EPSILON]
    linarith
  have hcuF1 : ¬(|(px - sx)/w| < EPSILON ∨ |(px - sx)/w - 1| < EPSILON) := by
    rw [abs_of_nonneg (le_trans heps.le hu1lo),
      abs_of_nonpos (by linarith : (px - sx)/w - 1 ≤ 0)]
    push_neg
    constructor <;> linarith
  have hcrF1 : ¬((px - sx)/w < -EPSILON ∨ (px - sx)/w > 1 + EPSILON) := by
    push_neg
    constructor <;> linarith
  have hu2lo : EPSILON ≤ (px + 32 - sx)/w := by
    rw [le_div_iff₀ hw0, EPSILON]
    linarith
  have hu2hi : (px + 32 - sx)/w ≤ 1 - EPSILON := by
    rw [div_le_iff₀ hw0, EPSILON]
    linarith
  have hcuF2 : ¬(|(px + 32 - sx)/w| < EPSILON
      ∨ |(px + 32 - sx)/w - 1| < EPSILON) := by
    rw [abs_of_nonneg (le_trans heps.le hu2lo),
      abs_of_nonpos (by linarith : (px + 32 - sx)/w - 1 ≤ 0)]
    push_neg
    constructor <;> linarith
  have hcrF2 : ¬((px + 32 - sx)/w < -EPSILON
      ∨ (px + 32 - sx)/w > 1 + EPSILON) := by
    push_neg
    constructor <;> linarith
  have huR1 : (33/32 : ℚ) ≤ (px + 32 - sx)/32 := by
    rw [le_div_iff₀ (by norm_num : (0:ℚ) < 32)]
    linarith
  have hcuR1 : ¬(|(px + 32 - sx)/32| < EPSILON
      ∨ |(px + 32 - sx)/32 - 1| < EPSILON) := by
    rw [abs_of_nonneg (by linarith : (0:ℚ) ≤ (px + 32 - sx)/32),
      abs_of_nonneg (by linarith : (0:ℚ) ≤ (px + 32 - sx)/32 - 1)]
    push_neg
    rw [EPSILON]
    constructor <;> linarith
  have huR2 : (px + 32 - (sx + w))/32 ≤ -1/32 := by
    rw [div_le_iff₀ (by norm_num : (0:ℚ) < 32)]
    linarith
  have hcuR2 : ¬(|(px + 32 - (sx + w))/32| < EPSILON
      ∨ |(px + 32 - (sx + w))/32 - 1| < EPSILON) := by
    rw [abs_of_nonpos (by linarith : (px + 32 - (sx + w))/32 ≤ 0),
      abs_of_nonpos (by linarith : (px + 32 - (sx + w))/32 - 1 ≤ 0)]
    push_neg
    rw [EPSILON]
    constructor <;> linarith
  rw [if_neg hctF, if_neg hcuF1, if_neg hcrF1]
  rw [if_neg hctF, if_neg hcuF2, if_neg hcrF2]
  rw [if_neg hctF, if_neg hcuR1,
    if_pos (Or.inr (by rw [EPSILON]; linarith) :
      (px + 32 - sx)/32 < -EPSILON ∨ (px + 32 - sx)/32 > 1 + EPSILON)]
  rw [if_neg hctF, if_neg hcuR2,
    if_pos (Or.inl (by rw [EPSILON]; linarith) :
      (px + 32 - (sx + w))/32 < -EPSILON
        ∨ (px + 32 - (sx + w))/32 > 1 + EPSILON)]
  simp [List.singleton_append, BestMap.new, BestMap.insert_le,
    BestMap.into_key_and_value, le_refl]

/-- Broad phase plus narrow phase of the falling-rectangle scenario:
the single platform is visited exactly when its top edge is strictly
inside the swept band, and then the step reports the collision; at the
exact boundary `sy = py + 64 + v` the strict broad-phase test misses
and the step reports free movement. -/
theorem rect_fall_movement_step (px py sx sy w h v : ℚ)
    (hv : 1/100 ≤ v) (hw1000 : w ≤ 1000) (hh : 0 ≤ h)
    (hx1 : sx + 1 ≤ px) (hx2 : px + 33 ≤ sx + w)
    (hy1 : py + 64 ≤ sy) (hy2 : sy ≤ py + 64 + v) (eid : ℕ) :
    entity_movement_step (vec2 px py)
        (Shape.AxisAlignedRect (AxisAlignedRect.new (vec2 32 64))) (vec2 0 v)
        [(Aabb.new (vec2 sx sy) (vec2 w h),
          ⟨eid, vec2 sx sy, Shape.AxisAlignedRect (AxisAlignedRect.new (vec2 w h))⟩)]
      = some (if sy < py + 64 + v then
          EntityMovementStep.MoveWithCollision
            ⟨(sy - (py + 64))/v, LineSegment.new (vec2 sx sy) (vec2 (sx + w) sy)⟩
        else EntityMovementStep.MoveWithoutCollision) := by
  have hv0 : (0:ℚ) < v := lt_of_lt_of_le (by norm_num) hv
  have hshape : Shape.movement_collision_test
      (Shape.AxisAlignedRect (AxisAlignedRect.new (vec2 32 64))) (vec2 px py)
      (Shape.AxisAlignedRect (AxisAlignedRect.new (vec2 w h))) (vec2 sx sy)
      (vec2 0 v)
      = some (some ⟨(sy - (py + 64))/v,
          LineSegment.new (vec2 sx sy) (vec2 (sx + w) sy)⟩) := by
    simp only [Shape.movement_collision_test]
    rw [rect_fall_collision_test px py sx sy w h v hv hw1000 hx1 hx2 hy1 hy2]
  have hquery : ((Shape.AxisAlignedRect (AxisAlignedRect.new (vec2 32 64))).aabb
        (vec2 px py)).union
      ((Shape.AxisAlignedRect (AxisAlignedRect.new (vec2 32 64))).aabb
        (vec2 px py + vec2 0 v))
      = Aabb.new (vec2 px py) (vec2 32 (64 + v)) := by
    simp only [Shape.aabb, AxisAlignedRect.aabb, AxisAlignedRect.new, Aabb.union,
      Aabb.new, Aabb.bottom_right_coord, vec2, Vec2.add_def, Vec2.sub_def,
      Aabb.mk.injEq, Vec2.mk.injEq, add_zero]
    refine ⟨⟨min_self px, min_eq_left (by linarith)⟩, ?_, ?_⟩
    · rw [max_self, min_self]; ring
    · rw [max_eq_right (by linarith), min_eq_left (by linarith)]; ring
  simp only [entity_movement_step, hquery]
  rcases lt_or_ge sy (py + 64 + v) with hlt | hge
  · have hpred : (Aabb.new (vec2 sx sy) (vec2 w h)).is_intersecting
        (Aabb.new (vec2 px py) (vec2 32 (64 + v))) = true := by
      simp only [Aabb.is_intersecting, Aabb.new, vec2, Bool.and_eq_true,
        decide_eq_true_eq]
      refine ⟨⟨⟨?_, ?_⟩, ?_⟩, ?_⟩ <;> linarith
    rw [if_pos hlt]
    simp only [SpatialLooseQuadTree.for_each_intersection, List.filter, hpred,
      List.foldl_cons, List.foldl_nil, collision_fold_step, BestMap.new]
    rw [hshape]
    simp [BestMap.insert_lt, BestMap.into_key_and_value]
  · have heq : sy = py + 64 + v := le_antisymm hy2 hge
    have hpred : (Aabb.new (vec2 sx sy) (vec2 w h)).is_intersecting
        (Aabb.new (vec2 px py) (vec2 32 (64 + v))) = false := by
      simp only [Aabb.is_intersecting, Aabb.new, vec2, Bool.and_eq_false_iff,
        decide_eq_false_iff_not, not_lt]
      right
      linarith
    rw [if_neg (by linarith : ¬ sy < py + 64 + v)]
    simp only [SpatialLooseQuadTree.for_each_intersection, List.filter, hpred,
      List.foldl_nil, BestMap.new, BestMap.into_key_and_value]

/-- C1 (amended): a 32x64 rectangle moving straight down by `v` onto a
stationary horizontal platform with top edge at `y = sy` stops exactly
at `y = sy - 64`, and the remaining movement projected on the horizontal
contact edge has no vertical component — provided the movement is above
the resolution dead zone (`v ≥ 1/100`, i.e. `v² ≥ EPSILON = 1/10000`)
and the rectangle lies horizontally strictly inside the platform
(margin 1, platform width at most 1000), which the counterexample shows
is needed: a tiny `v > 0` is returned unmoved. -/
theorem top_left_after_movement_lands_on_platform (px py sx sy w h v : ℚ)
    (colour : ℚ × ℚ × ℚ) (eid : ℕ)
    (hv : 1/100 ≤ v) (hw1000 : w ≤ 1000) (hh : 0 ≤ h)
    (hx1 : sx + 1 ≤ px) (hx2 : px + 33 ≤ sx + w)
    (hy1 : py + 64 ≤ sy) (hy2 : sy ≤ py + 64 + v) :
    top_left_after_movement
        [(Aabb.new (vec2 sx sy) (vec2 w h),
          ⟨eid, vec2 sx sy, Shape.AxisAlignedRect (AxisAlignedRect.new (vec2 w h))⟩)]
        ⟨vec2 px py, Shape.AxisAlignedRect (AxisAlignedRect.new (vec2 32 64)), colour⟩
        (vec2 0 v)
      = some (vec2 px (sy - 64)) ∧
    ∀ z : ℚ, ((vec2 0 z).project_on
        (LineSegment.new (vec2 sx sy) (vec2 (sx + w) sy)).vector).y = 0 := by
  have hv0 : (0:ℚ) < v := lt_of_lt_of_le (by norm_num) hv
  constructor
  · have hvv : (1/100 : ℚ) * (1/100) ≤ v * v :=
      mul_le_mul hv hv (by norm_num) hv0.le
    rw [top_left_after_movement]
    rw [if_neg (by
      simp only [Vec2.dot, vec2, EPSILON_GAME]
      push_neg
      linarith)]
    rw [show MAX_ITERATIONS = 15 + 1 from rfl]
    dsimp only
    rw [top_left_after_movement_loop_succ]
    rw [rect_fall_movement_step px py sx sy w h v hv hw1000 hh hx1 hx2 hy1 hy2 eid]
    have htarget : vec2 px py + vec2 0 v * ((sy - (py + 64))/v)
        = vec2 px (sy - 64) := by
      simp only [Vec2.mul_def, Vec2.add_def, vec2, Vec2.mk.injEq]
      constructor
      · ring
      · field_simp
        ring
    rcases lt_or_ge sy (py + 64 + v) with hlt | hge
    · rw [if_pos hlt]
      dsimp only
      by_cases hrem : 1 - (sy - (py + 64))/v < EPSILON_GAME
      · rw [if_pos hrem, htarget]
      · rw [if_neg hrem]
        have hproj : ((vec2 0 v * (1 - (sy - (py + 64))/v)).project_on
            (LineSegment.new (vec2 sx sy) (vec2 (sx + w) sy)).vector)
            = vec2 0 0 := by
          simp only [Vec2.project_on, Vec2.dot, Vec2.mul_def, LineSegment.vector,
            LineSegment.new, vec2, Vec2.sub_def, Vec2.mk.injEq]
          constructor <;>
          · rw [show 0 * (1 - (sy - (py + 64))/v) * (sx + w - sx)
                + v * (1 - (sy - (py + 64))/v) * (sy - sy) = 0 from by ring,
              zero_div, mul_zero]
        rw [hproj]
        rw [if_pos (by norm_num [Vec2.magnitude2, Vec2.dot, vec2, EPSILON_GAME])]
        rw [htarget]
    · have heq : sy = py + 64 + v := le_antisymm hy2 hge
      rw [if_neg (by linarith : ¬ sy < py + 64 + v)]
      dsimp only
      simp only [Vec2.add_def, vec2, Vec2.mk.injEq, Option.some.injEq]
      constructor
      · ring
      · linarith
  · intro z
    simp only [Vec2.project_on, Vec2.dot, Vec2.mul_def, LineSegment.vector,
      LineSegment.new, vec2, Vec2.sub_def]
    rw [show sy - sy = (0:ℚ) from by ring, zero_mul]

/-- C1 counterexample: with `v = 1/200 > 0` and the platform top at
`64 + 1/400`, inside the swept path of the falling 32x64 rectangle at
the origin (which lies horizontally strictly inside the platform), the
resolution returns the position unchanged (`(0,0)`), not
`(0, platform_y - 64) = (0, 1/400)`: the movement is below the
dead-zone threshold `EPSILON = 1/10000` on its squared magnitude. -/
theorem top_left_after_movement_tiny_v_cex :
    ((0:ℚ) < 1/200) ∧
    ((0:ℚ) + 64 ≤ 64 + 1/400) ∧ (64 + 1/400 ≤ (0:ℚ) + 64 + 1/200) ∧
    ((-100:ℚ) + 1 ≤ 0) ∧ ((0:ℚ) + 33 ≤ -100 + 232) ∧
    top_left_after_movement
        [(Aabb.new (vec2 (-100) (64 + 1/400)) (vec2 232 20),
          ⟨1, vec2 (-100) (64 + 1/400),
            Shape.AxisAlignedRect (AxisAlignedRect.new (vec2 232 20))⟩)]
        ⟨vec2 0 0, Shape.AxisAlignedRect (AxisAlignedRect.new (vec2 32 64)),
          (1, 0, 0)⟩
        (vec2 0 (1/200))
      = some (vec2 0 0) ∧
    vec2 0 0 ≠ vec2 0 ((64 + 1/400) - 64) := by
  refine ⟨by norm_num, by norm_num, by norm_num, by norm_num, by norm_num, ?_, ?_⟩
  · rw [top_left_after_movement,
      if_pos (by norm_num [Vec2.dot, vec2, EPSILON_GAME])]
  · simp only [vec2, ne_eq, Vec2.mk.injEq, not_and]
    intro _
    norm_num

/-- C1 witness: concrete fall of the 32x64 rectangle from `(100, 0)`
by `v = 50` onto a 200x20 platform at `(50, 100)`, landing at
`(100, 36)`. -/
theorem top_left_after_movement_lands_on_platform_witness :
    ((1/100 : ℚ) ≤ 50) ∧ ((200 : ℚ) ≤ 1000) ∧ ((0 : ℚ) ≤ 20) ∧
    ((50 : ℚ) + 1 ≤ 100) ∧ ((100 : ℚ) + 33 ≤ 50 + 200) ∧
    ((0 : ℚ) + 64 ≤ 100) ∧ ((100 : ℚ) ≤ 0 + 64 + 50) ∧
    top_left_after_movement
        [(Aabb.new (vec2 50 100) (vec2 200 20),
          ⟨1, vec2 50 100,
            Shape.AxisAlignedRect (AxisAlignedRect.new (vec2 200 20))⟩)]
        ⟨vec2 100 0, Shape.AxisAlignedRect (AxisAlignedRect.new (vec2 32 64)),
          (1, 0, 0)⟩
        (vec2 0 50)
      = some (vec2 100 (100 - 64)) :=
  ⟨by norm_num, by norm_num, by norm_num, by norm_num, by norm_num, by norm_num,
    by norm_num,
    (top_left_after_movement_lands_on_platform 100 0 50 100 200 20 50 (1, 0, 0) 1
      (by norm_num) (by norm_num) (by norm_num) (by norm_num) (by norm_num)
      (by norm_num) (by norm_num)).1⟩
